import Mathlib

/-!
Shallow embedding of the Conway's Game of Life terminal application
(`conway-game-life-ratatui`): the cell/grid data model, the generation
engine (`Universe::tick`, `Universe::compute_next_generation`), the
plaintext pattern ingestion with centering (`Universe::parse_text_file`),
the builder construction paths (`UniverseBuilder` in `universe.rs` and in
`universe_builder.rs`), the tick-interval computation of `Universe::run`,
and the color resolver.

Conventions:
- Rust `usize`/`u16`/`u32` sizes are modelled as `Nat` (grid dimensions come
  from the terminal `Size`, a pair of `u16`, so no wrap-around is
  reachable in the modelled arithmetic); the `as i32` coordinate
  arithmetic of the neighbor scan is modelled with `Int`.
- Rust `f64` density values are modelled as `ℚ`: the only operations the
  code performs on them are order comparisons against `0.0` and `1.0`
  and `clamp(0.0, 1.0)`, which are exact.
- `Vec<Vec<Cell>>` is `List (List Cell)`, `&str` lines are `List Char`.
- Fallible paths (`Result<_, Error>`) are `Except String _` carrying the
  exact message string the code builds; Rust panics (integer division by
  zero) are modelled as `Option.none`.
-/

/-- `Cell` from `cell.rs`: a single boolean life-state value. -/
structure Cell where
  is_alive : Bool
deriving DecidableEq, Repr

/-- `Cell::new(is_alive)` from `cell.rs`. -/
def Cell.new (b : Bool) : Cell := ⟨b⟩

/-- `Cell::default()` from `cell.rs`: a dead cell. -/
def Cell.deadCell : Cell := ⟨false⟩

/-- Read a cell of a grid at row `x`, column `y`; out-of-range reads
return the dead cell (in-bounds accesses are the only ones the code
performs, which the bounds theorems below establish). -/
def cellAt (g : List (List Cell)) (x y : Nat) : Cell :=
  (g.getD x []).getD y Cell.deadCell

/-- Aliveness of the cell of `g` at row `x`, column `y`. -/
def aliveAt (g : List (List Cell)) (x y : Nat) : Bool :=
  (cellAt g x y).is_alive

/-- The `NEIGHBOR_OFFSETS` constant of `Universe::tick` in `universe.rs`:
the 8 offsets `(dx, dy)` with `dx, dy ∈ {-1,0,1}`, `(dx,dy) ≠ (0,0)`. -/
def neighborOffsets : List (Int × Int) :=
  [(-1, -1), (-1, 0), (-1, 1), (0, -1), (0, 1), (1, -1), (1, 0), (1, 1)]

/-- The bounds filter of the neighbor scan in `Universe::tick`: the
offsets whose target position `(x+dx, y+dy)` lies inside
`[0, rows) × [0, cols)`.  These are exactly the grid positions the scan
reads. -/
def inBoundsNeighbors (rows cols x y : Nat) : List (Int × Int) :=
  neighborOffsets.filter (fun p =>
    decide (0 ≤ (x : Int) + p.1) && decide ((x : Int) + p.1 < (rows : Int)) &&
    decide (0 ≤ (y : Int) + p.2) && decide ((y : Int) + p.2 < (cols : Int)))

/-- The alive-neighbor count computed by `Universe::tick`: among the
in-bounds neighbor positions of `(x, y)`, those holding an alive cell of
`g` (the previous generation only). -/
def aliveNeighborCount (g : List (List Cell)) (rows cols x y : Nat) : Nat :=
  ((inBoundsNeighbors rows cols x y).filter
    (fun p => aliveAt g ((x : Int) + p.1).toNat ((y : Int) + p.2).toNat)).length

/-- `Universe::tick(rows, cols, current_grid, x, y)` from `universe.rs`:
next state of the single cell `(x, y)`, by the rule
`matches!((alive, n), (true, 2 | 3) | (false, 3))`. -/
def tick (rows cols : Nat) (g : List (List Cell)) (x y : Nat) : Bool :=
  let cell := cellAt g x y
  let n := aliveNeighborCount g rows cols x y
  (cell.is_alive && (n == 2 || n == 3)) || (!cell.is_alive && n == 3)

/-- The `cols` computation of `Universe::compute_next_generation`:
`if rows > 0 { current_grid[0].len() } else { 0 }`. -/
def headCols (g : List (List Cell)) : Nat :=
  match g with
  | [] => 0
  | r :: _ => r.length

/-- `Universe::compute_next_generation` from `universe.rs`: a fresh grid
of the same dimensions, each cell obtained from `tick` over the previous
generation. -/
def compute_next_generation (g : List (List Cell)) : List (List Cell) :=
  let rows := g.length
  let cols := headCols g
  (List.range rows).map (fun x =>
    (List.range cols).map (fun y => Cell.new (tick rows cols g x y)))

/-- A grid is rectangular of width `w`: every row has length `w`. -/
def Rect (g : List (List Cell)) (w : Nat) : Prop :=
  ∀ row ∈ g, row.length = w

instance (g : List (List Cell)) (w : Nat) : Decidable (Rect g w) := by
  unfold Rect; infer_instance

-- Basic `getD` index lemmas used throughout.

theorem getD_append_lt {α : Type} (l1 l2 : List α) (d : α) (i : Nat)
    (h : i < l1.length) : (l1 ++ l2).getD i d = l1.getD i d := by
  induction l1 generalizing i with
  | nil => simp at h
  | cons a t ih =>
    cases i with
    | zero => rfl
    | succ j =>
      simp only [List.cons_append, List.getD_cons_succ]
      exact ih j (by simpa using Nat.lt_of_succ_lt_succ h)

theorem getD_append_ge {α : Type} (l1 l2 : List α) (d : α) (i : Nat)
    (h : l1.length ≤ i) : (l1 ++ l2).getD i d = l2.getD (i - l1.length) d := by
  induction l1 generalizing i with
  | nil => simp
  | cons a t ih =>
    cases i with
    | zero => simp at h
    | succ j =>
      simp only [List.cons_append, List.getD_cons_succ, List.length_cons]
      rw [ih j (Nat.le_of_succ_le_succ h)]
      congr 1
      omega

theorem getD_replicate {α : Type} (n i : Nat) (a d : α) (h : i < n) :
    (List.replicate n a).getD i d = a := by
  induction n generalizing i with
  | zero => omega
  | succ m ih =>
    cases i with
    | zero => rfl
    | succ j =>
      simp only [List.replicate_succ, List.getD_cons_succ]
      exact ih j (Nat.lt_of_succ_lt_succ h)

theorem getD_map {α β : Type} (f : α → β) (l : List α) (i : Nat)
    (d : β) (da : α) (h : i < l.length) :
    (l.map f).getD i d = f (l.getD i da) := by
  induction l generalizing i with
  | nil => simp at h
  | cons a t ih =>
    cases i with
    | zero => rfl
    | succ j =>
      simp only [List.map_cons, List.getD_cons_succ]
      exact ih j (Nat.lt_of_succ_lt_succ h)

theorem getD_range (n i : Nat) (d : Nat) (h : i < n) :
    (List.range n).getD i d = i := by
  have hlen : i < (List.range n).length := by simpa using h
  have h1 : (List.range n).getD i d = (List.range n).get ⟨i, hlen⟩ :=
    List.getD_eq_getElem _ _ hlen
  rw [h1]
  simp

-- The cell produced by `compute_next_generation` at an in-range position
-- is exactly the `tick` of that position over the previous generation.

theorem compute_cell (g : List (List Cell)) (x y : Nat)
    (hx : x < g.length) (hy : y < headCols g) :
    cellAt (compute_next_generation g) x y =
      Cell.new (tick g.length (headCols g) g x y) := by
  unfold compute_next_generation cellAt
  rw [getD_map _ _ _ _ 0 (by simpa using hx), getD_range _ _ _ hx,
    getD_map _ _ _ _ 0 (by simpa using hy), getD_range _ _ _ hy]

theorem tick_iff (rows cols : Nat) (g : List (List Cell)) (x y : Nat) :
    tick rows cols g x y = true ↔
      ((aliveAt g x y = true ∧
         (aliveNeighborCount g rows cols x y = 2 ∨
          aliveNeighborCount g rows cols x y = 3)) ∨
       (aliveAt g x y = false ∧ aliveNeighborCount g rows cols x y = 3)) := by
  unfold tick aliveAt
  cases h : (cellAt g x y).is_alive <;> simp [h]

/-- C1: for every rectangular grid `G` (zero-sized included), one
generation step (`Universe::compute_next_generation`) yields a fresh grid
of identical dimensions whose cell `(x, y)` is alive iff
(alive in `G` and its alive-neighbor count in `G` is 2 or 3) or
(dead in `G` and its count is exactly 3).  Neighbor counts
(`aliveNeighborCount`) are taken over `G` only: the step is a pure
function of the input grid, so no read ever sees the grid under
construction. -/
theorem next_generation_rule (g : List (List Cell)) (w : Nat)
    (hrect : Rect g w) :
    (compute_next_generation g).length = g.length ∧
    (∀ row ∈ compute_next_generation g, row.length = w) ∧
    (∀ x y, x < g.length → y < headCols g →
      (aliveAt (compute_next_generation g) x y = true ↔
        ((aliveAt g x y = true ∧
           (aliveNeighborCount g g.length (headCols g) x y = 2 ∨
            aliveNeighborCount g g.length (headCols g) x y = 3)) ∨
         (aliveAt g x y = false ∧
           aliveNeighborCount g g.length (headCols g) x y = 3)))) := by
  refine ⟨by simp [compute_next_generation], ?_, ?_⟩
  · intro row hrow
    unfold compute_next_generation at hrow
    simp only [List.mem_map, List.mem_range] at hrow
    obtain ⟨x, hx, hxeq⟩ := hrow
    have hcols : headCols g = w := by
      cases g with
      | nil => simp at hx
      | cons r t => exact hrect r (by simp)
    simp [← hxeq, hcols]
  · intro x y hx hy
    rw [show aliveAt (compute_next_generation g) x y =
          (cellAt (compute_next_generation g) x y).is_alive from rfl,
      compute_cell g x y hx hy]
    exact tick_iff g.length (headCols g) g x y

/-- Witness for C1 at the centered 3×3 blinker: the center-row line is
rectangular of width 3, and the new top-middle cell obeys the rule. -/
theorem next_generation_rule_witness :
    Rect [[Cell.new false, Cell.new false, Cell.new false],
          [Cell.new true, Cell.new true, Cell.new true],
          [Cell.new false, Cell.new false, Cell.new false]] 3 ∧
    (aliveAt (compute_next_generation
        [[Cell.new false, Cell.new false, Cell.new false],
         [Cell.new true, Cell.new true, Cell.new true],
         [Cell.new false, Cell.new false, Cell.new false]]) 0 1 = true ↔
      ((aliveAt [[Cell.new false, Cell.new false, Cell.new false],
                 [Cell.new true, Cell.new true, Cell.new true],
                 [Cell.new false, Cell.new false, Cell.new false]] 0 1 = true ∧
         (aliveNeighborCount [[Cell.new false, Cell.new false, Cell.new false],
            [Cell.new true, Cell.new true, Cell.new true],
            [Cell.new false, Cell.new false, Cell.new false]] 3 3 0 1 = 2 ∨
          aliveNeighborCount [[Cell.new false, Cell.new false, Cell.new false],
            [Cell.new true, Cell.new true, Cell.new true],
            [Cell.new false, Cell.new false, Cell.new false]] 3 3 0 1 = 3)) ∨
       (aliveAt [[Cell.new false, Cell.new false, Cell.new false],
                 [Cell.new true, Cell.new true, Cell.new true],
                 [Cell.new false, Cell.new false, Cell.new false]] 0 1 = false ∧
         aliveNeighborCount [[Cell.new false, Cell.new false, Cell.new false],
           [Cell.new true, Cell.new true, Cell.new true],
           [Cell.new false, Cell.new false, Cell.new false]] 3 3 0 1 = 3))) :=
  ⟨by decide,
   (next_generation_rule
      [[Cell.new false, Cell.new false, Cell.new false],
       [Cell.new true, Cell.new true, Cell.new true],
       [Cell.new false, Cell.new false, Cell.new false]] 3 (by decide)).2.2
     0 1 (by decide) (by decide)⟩

/-- C2 counterexample: in a 1×1 grid the corner cell `(0, 0)` examines no
neighbor position at all — not 3 as the claim states for every
rectangular grid.  (`inBoundsNeighbors` is the exact set of positions the
neighbor scan of `Universe::tick` reads.) -/
theorem corner_1x1_examines_zero : inBoundsNeighbors 1 1 0 0 = [] := by decide

/-- C2 (amended): the neighbor scan of `Universe::tick` examines only
offsets from the 8-element `NEIGHBOR_OFFSETS` whose target lies inside
`[0, rows) × [0, cols)` (so no access is out of bounds and at most 8
positions are read), and for the corner cell `(0, 0)` of a grid with at
least 2 rows and 2 columns it examines exactly 3 positions. -/
theorem neighbor_scan_bounds (rows cols x y : Nat) :
    (∀ p ∈ inBoundsNeighbors rows cols x y,
        p ∈ neighborOffsets ∧
        0 ≤ (x : Int) + p.1 ∧ (x : Int) + p.1 < (rows : Int) ∧
        0 ≤ (y : Int) + p.2 ∧ (y : Int) + p.2 < (cols : Int)) ∧
    (inBoundsNeighbors rows cols x y).length ≤ 8 ∧
    (2 ≤ rows → 2 ≤ cols → (inBoundsNeighbors rows cols 0 0).length = 3) := by
  refine ⟨?_, ?_, ?_⟩
  · intro p hp
    unfold inBoundsNeighbors at hp
    rw [List.mem_filter] at hp
    obtain ⟨hmem, hcond⟩ := hp
    simp only [Bool.and_eq_true, decide_eq_true_eq] at hcond
    exact ⟨hmem, hcond.1.1.1, hcond.1.1.2, hcond.1.2, hcond.2⟩
  · exact (List.length_filter_le _ _).trans (by decide)
  · intro hr hc
    have h1 : (1 : Int) < (rows : Int) := by omega
    have h2 : (1 : Int) < (cols : Int) := by omega
    have e : inBoundsNeighbors rows cols 0 0 =
        [((0 : Int), (1 : Int)), (1, 0), (1, 1)] := by
      have h3 : 0 < rows := by omega
      have h4 : 0 < cols := by omega
      unfold inBoundsNeighbors neighborOffsets
      simp [List.filter_cons, h1, h2, h3, h4]
    rw [e]
    rfl

/-- Witness for C2's amended theorem at the concrete 2×2 grid. -/
theorem neighbor_scan_bounds_witness : (inBoundsNeighbors 2 2 0 0).length = 3 :=
  (neighbor_scan_bounds 2 2 0 0).2.2 (Nat.le_refl 2) (Nat.le_refl 2)

/-- `line.starts_with("!")` as used in `Universe::parse_text_file`. -/
def startsBang : List Char → Bool
  | [] => false
  | c :: _ => c == '!'

/-- The line filter of `Universe::parse_text_file`:
`!line.is_empty() && !line.starts_with("!")`. -/
def keepLine (l : List Char) : Bool := !(l.isEmpty) && !(startsBang l)

/-- The `pattern_lines` of `Universe::parse_text_file`: input lines with
empty lines and comment lines removed. -/
def patternLinesOf (lines : List (List Char)) : List (List Char) :=
  lines.filter keepLine

/-- Maximum line length, `iter().map(len).max().unwrap_or(0)`. -/
def maxLen (ls : List (List Char)) : Nat := (ls.map List.length).foldr max 0

/-- `pattern_width` of `Universe::parse_text_file`. -/
def patternWidthOf (lines : List (List Char)) : Nat := maxLen (patternLinesOf lines)

/-- `pattern_height` of `Universe::parse_text_file`. -/
def patternHeightOf (lines : List (List Char)) : Nat := (patternLinesOf lines).length

/-- `top_pad = (grid_height.saturating_sub(pattern_height)) / 2` (on `Nat`,
saturating subtraction is subtraction). -/
def topPadOf (gh : Nat) (lines : List (List Char)) : Nat :=
  (gh - patternHeightOf lines) / 2

/-- `left_pad = (grid_width.saturating_sub(pattern_width)) / 2`. -/
def leftPadOf (gw : Nat) (lines : List (List Char)) : Nat :=
  (gw - patternWidthOf lines) / 2

/-- `vec![Cell::default(); grid_width]`: a fully dead row. -/
def deadRow (w : Nat) : List Cell := List.replicate w Cell.deadCell

/-- One pattern row of `Universe::parse_text_file`: a dead row of width
`w` whose positions `leftPad + i` receive `Cell::new(c != '.')` for the
first `end_idx - start_idx` characters `c` of the line, where
`end_idx = (leftPad + line.len()).min(w)` — the functional rendering of
the in-place writes `row[start_idx + i] = Cell::new(c != '.')`. -/
def buildRow (w leftPad : Nat) (line : List Char) : List Cell :=
  let endIdx := min (leftPad + line.length) w
  let taken := line.take (endIdx - leftPad)
  List.replicate leftPad Cell.deadCell ++
    taken.map (fun c => Cell.new (c != '.')) ++
    List.replicate (w - (leftPad + taken.length)) Cell.deadCell

/-- `Universe::parse_text_file` from `universe.rs`, after the file has
been read into lines: filter comment/empty lines, compute pattern
dimensions, reject patterns larger than the grid with the code's exact
error message, and otherwise build the vertically and horizontally
centered grid (top dead rows, pattern rows, bottom dead rows filled
until `grid_height`). -/
def parse_text_file (lines : List (List Char)) (gw gh : Nat) :
    Except String (List (List Cell)) :=
  let pls := patternLinesOf lines
  let ph := pls.length
  let pw := maxLen pls
  if pw > gw ∨ ph > gh then Except.error "Grid too small for pattern"
  else
    let topPad := (gh - ph) / 2
    let leftPad := (gw - pw) / 2
    Except.ok (List.replicate topPad (deadRow gw) ++
      pls.map (buildRow gw leftPad) ++
      List.replicate (gh - (topPad + ph)) (deadRow gw))

/-- The character of the pattern at `(r, c)` with the dead marker `'.'`
as default, so that positions right of a short line read as dead. -/
def charAtD (lines : List (List Char)) (r c : Nat) : Char :=
  ((patternLinesOf lines).getD r []).getD c '.'

/-- The pattern's cell at `(r, c)`: alive exactly when the character
there is not `'.'` (missing characters of short rows read as `'.'`). -/
def patternCellOf (lines : List (List Char)) (r c : Nat) : Cell :=
  Cell.new (charAtD lines r c != '.')

theorem getD_of_le {α : Type} (l : List α) (d : α) (i : Nat)
    (h : l.length ≤ i) : l.getD i d = d := by
  induction l generalizing i with
  | nil => rfl
  | cons a t ih =>
    cases i with
    | zero => simp at h
    | succ j => exact ih j (Nat.le_of_succ_le_succ h)

theorem mem_le_maxLen (ls : List (List Char)) (l : List Char) (h : l ∈ ls) :
    l.length ≤ maxLen ls := by
  induction ls with
  | nil => simp at h
  | cons a t ih =>
    have hm : maxLen (a :: t) = max a.length (maxLen t) := rfl
    rcases List.mem_cons.1 h with h1 | h1
    · subst h1; omega
    · have := ih h1; omega

theorem getD_mem_of_lt {α : Type} (l : List α) (d : α) (r : Nat)
    (h : r < l.length) : l.getD r d ∈ l := by
  rw [List.getD_eq_getElem l d h]
  exact List.getElem_mem h

theorem buildRow_length (w lp : Nat) (line : List Char) (h : lp ≤ w) :
    (buildRow w lp line).length = w := by
  simp only [buildRow, List.length_append, List.length_replicate,
    List.length_map, List.length_take]
  omega

/-- The grid value `Universe::parse_text_file` builds when the pattern
fits: `top_pad` dead rows, the pattern rows, then dead rows until the
grid reaches `grid_height`. -/
def centeredGrid (lines : List (List Char)) (gw gh : Nat) : List (List Cell) :=
  List.replicate (topPadOf gh lines) (deadRow gw) ++
    (patternLinesOf lines).map (buildRow gw (leftPadOf gw lines)) ++
    List.replicate (gh - (topPadOf gh lines + patternHeightOf lines)) (deadRow gw)

theorem parse_ok (lines : List (List Char)) (gw gh : Nat)
    (hw : patternWidthOf lines ≤ gw) (hh : patternHeightOf lines ≤ gh) :
    parse_text_file lines gw gh = Except.ok (centeredGrid lines gw gh) := by
  simp only [parse_text_file]
  rw [if_neg]
  · rfl
  · push_neg
    exact ⟨hw, hh⟩

theorem buildRow_full (gw lp : Nat) (line : List Char)
    (h : lp + line.length ≤ gw) :
    buildRow gw lp line =
      List.replicate lp Cell.deadCell ++
        line.map (fun c => Cell.new (c != '.')) ++
        List.replicate (gw - (lp + line.length)) Cell.deadCell := by
  simp only [buildRow]
  rw [Nat.min_eq_left h, Nat.add_sub_cancel_left, List.take_length]

theorem buildRow_getD (gw lp : Nat) (line : List Char) (c : Nat)
    (hline : lp + line.length ≤ gw) (hc : c < gw - lp) :
    (buildRow gw lp line).getD (lp + c) Cell.deadCell =
      Cell.new (line.getD c '.' != '.') := by
  rw [buildRow_full gw lp line hline, List.append_assoc,
    getD_append_ge _ _ _ _ (by simp)]
  simp only [List.length_replicate, Nat.add_sub_cancel_left]
  by_cases hcl : c < line.length
  · rw [getD_append_lt _ _ _ _ (by simpa using hcl), getD_map _ _ _ _ '.' hcl]
  · push_neg at hcl
    rw [getD_append_ge _ _ _ _ (by simpa using hcl)]
    simp only [List.length_map]
    rw [getD_replicate _ _ _ _ (by omega), getD_of_le _ _ _ hcl]
    rfl

theorem buildRow_getD_dead (gw lp : Nat) (line : List Char) (j : Nat)
    (hline : lp + line.length ≤ gw) (hj : j < gw)
    (hout : j < lp ∨ lp + line.length ≤ j) :
    (buildRow gw lp line).getD j Cell.deadCell = Cell.deadCell := by
  rw [buildRow_full gw lp line hline, List.append_assoc]
  rcases hout with h | h
  · rw [getD_append_lt _ _ _ _ (by simpa using h)]
    exact getD_replicate _ _ _ _ h
  · rw [getD_append_ge _ _ _ _ (by simp; omega)]
    simp only [List.length_replicate]
    rw [getD_append_ge _ _ _ _ (by simp; omega)]
    simp only [List.length_map]
    exact getD_replicate _ _ _ _ (by omega)

theorem centeredGrid_length (lines : List (List Char)) (gw gh : Nat)
    (hh : patternHeightOf lines ≤ gh) :
    (centeredGrid lines gw gh).length = gh := by
  have hd : topPadOf gh lines ≤ gh - patternHeightOf lines :=
    Nat.div_le_self _ _
  simp only [centeredGrid, List.length_append, List.length_replicate,
    List.length_map]
  have : ((patternLinesOf lines).length : Nat) = patternHeightOf lines := rfl
  omega

theorem centeredGrid_rows (lines : List (List Char)) (gw gh : Nat)
    (hw : patternWidthOf lines ≤ gw) :
    ∀ row ∈ centeredGrid lines gw gh, row.length = gw := by
  have hlp : leftPadOf gw lines ≤ gw := by
    have := Nat.div_le_self (gw - patternWidthOf lines) 2
    unfold leftPadOf
    omega
  intro row hrow
  simp only [centeredGrid, List.mem_append] at hrow
  rcases hrow with (h | h) | h
  · rw [List.eq_of_mem_replicate h]
    simp [deadRow]
  · simp only [List.mem_map] at h
    obtain ⟨line, _, hleq⟩ := h
    rw [← hleq]
    exact buildRow_length gw _ line hlp
  · rw [List.eq_of_mem_replicate h]
    simp [deadRow]

theorem centeredGrid_row (lines : List (List Char)) (gw gh r : Nat)
    (hr : r < patternHeightOf lines) :
    (centeredGrid lines gw gh).getD (topPadOf gh lines + r) [] =
      buildRow gw (leftPadOf gw lines) ((patternLinesOf lines).getD r []) := by
  unfold centeredGrid
  rw [getD_append_lt _ _ _ _
      (by simp only [List.length_append, List.length_replicate,
            List.length_map]
          have : (patternLinesOf lines).length = patternHeightOf lines := rfl
          omega),
    getD_append_ge _ _ _ _ (by simp)]
  simp only [List.length_replicate, Nat.add_sub_cancel_left]
  exact getD_map _ _ _ _ [] (by simpa [patternHeightOf] using hr)

theorem line_le_width (lines : List (List Char)) (r : Nat)
    (hr : r < patternHeightOf lines) :
    ((patternLinesOf lines).getD r []).length ≤ patternWidthOf lines :=
  mem_le_maxLen _ _ (getD_mem_of_lt _ _ _ (by simpa [patternHeightOf] using hr))

theorem leftPad_add_width_le (lines : List (List Char)) (gw : Nat)
    (hw : patternWidthOf lines ≤ gw) :
    leftPadOf gw lines + patternWidthOf lines ≤ gw := by
  have := Nat.div_le_self (gw - patternWidthOf lines) 2
  unfold leftPadOf
  omega

theorem centeredGrid_cell_in (lines : List (List Char)) (gw gh r c : Nat)
    (hw : patternWidthOf lines ≤ gw)
    (hr : r < patternHeightOf lines) (hc : c < patternWidthOf lines) :
    cellAt (centeredGrid lines gw gh)
        (topPadOf gh lines + r) (leftPadOf gw lines + c) =
      patternCellOf lines r c := by
  have hlw := line_le_width lines r hr
  have hlp := leftPad_add_width_le lines gw hw
  unfold cellAt
  rw [centeredGrid_row lines gw gh r hr,
    buildRow_getD _ _ _ _ (by omega) (by omega)]
  rfl

theorem centeredGrid_cell_out (lines : List (List Char)) (gw gh i j : Nat)
    (hw : patternWidthOf lines ≤ gw)
    (hi : i < gh) (hj : j < gw)
    (hout : i < topPadOf gh lines ∨
            topPadOf gh lines + patternHeightOf lines ≤ i ∨
            j < leftPadOf gw lines ∨
            leftPadOf gw lines + patternWidthOf lines ≤ j) :
    cellAt (centeredGrid lines gw gh) i j = Cell.deadCell := by
  have htp : topPadOf gh lines ≤ gh - patternHeightOf lines :=
    Nat.div_le_self _ _
  have hlp := leftPad_add_width_le lines gw hw
  unfold cellAt
  by_cases hi1 : i < topPadOf gh lines
  · rw [show centeredGrid lines gw gh =
        List.replicate (topPadOf gh lines) (deadRow gw) ++
          ((patternLinesOf lines).map (buildRow gw (leftPadOf gw lines)) ++
           List.replicate (gh - (topPadOf gh lines + patternHeightOf lines))
             (deadRow gw)) from by simp [centeredGrid],
      getD_append_lt _ _ _ _ (by simpa using hi1),
      getD_replicate _ _ _ _ hi1]
    exact getD_replicate _ _ _ _ hj
  · by_cases hi2 : i < topPadOf gh lines + patternHeightOf lines
    · -- pattern row: use the column disjuncts
      have hr : i - topPadOf gh lines < patternHeightOf lines := by omega
      have hjout : j < leftPadOf gw lines ∨
          leftPadOf gw lines + patternWidthOf lines ≤ j := by
        rcases hout with h | h | h | h
        · omega
        · omega
        · exact Or.inl h
        · exact Or.inr h
      have hi3 : i = topPadOf gh lines + (i - topPadOf gh lines) := by omega
      rw [hi3, centeredGrid_row lines gw gh _ hr]
      have hlw := line_le_width lines (i - topPadOf gh lines) hr
      exact buildRow_getD_dead _ _ _ _ (by omega) hj (by omega)
    · -- below the pattern: the bottom dead rows
      rw [show centeredGrid lines gw gh =
          (List.replicate (topPadOf gh lines) (deadRow gw) ++
            (patternLinesOf lines).map (buildRow gw (leftPadOf gw lines))) ++
            List.replicate (gh - (topPadOf gh lines + patternHeightOf lines))
              (deadRow gw) from rfl,
        getD_append_ge _ _ _ _
          (by simp only [List.length_append, List.length_replicate,
                List.length_map]
              have : (patternLinesOf lines).length = patternHeightOf lines := rfl
              omega)]
      have hidx : i - (List.replicate (topPadOf gh lines) (deadRow gw) ++
          (patternLinesOf lines).map (buildRow gw (leftPadOf gw lines))).length <
          gh - (topPadOf gh lines + patternHeightOf lines) := by
        simp only [List.length_append, List.length_replicate, List.length_map]
        have : (patternLinesOf lines).length = patternHeightOf lines := rfl
        omega
      rw [getD_replicate _ _ _ _ hidx]
      exact getD_replicate _ _ _ _ hj

/-- C3: a pattern of `ph` filtered lines of maximal length `pw`, placed
into a `gw × gh` grid with `pw ≤ gw` and `ph ≤ gh`, succeeds; the
resulting grid has exactly `gh` rows of `gw` cells; the pattern's cell
`(r, c)` lands at row `topPad + r = (gh - ph) / 2 + r` and column
`leftPad + c = (gw - pw) / 2 + c` (integer floor division, so odd
leftover padding accrues bottom/right); and every cell outside the
placed `pw × ph` region is dead. -/
theorem pattern_centering (lines : List (List Char)) (gw gh : Nat)
    (hw : patternWidthOf lines ≤ gw) (hh : patternHeightOf lines ≤ gh) :
    ∃ g, parse_text_file lines gw gh = Except.ok g ∧
      g.length = gh ∧
      (∀ row ∈ g, row.length = gw) ∧
      (∀ r c, r < patternHeightOf lines → c < patternWidthOf lines →
        cellAt g (topPadOf gh lines + r) (leftPadOf gw lines + c) =
          patternCellOf lines r c) ∧
      (∀ i j, i < gh → j < gw →
        (i < topPadOf gh lines ∨
         topPadOf gh lines + patternHeightOf lines ≤ i ∨
         j < leftPadOf gw lines ∨
         leftPadOf gw lines + patternWidthOf lines ≤ j) →
        cellAt g i j = Cell.deadCell) := by
  refine ⟨centeredGrid lines gw gh, parse_ok lines gw gh hw hh,
    centeredGrid_length lines gw gh hh, centeredGrid_rows lines gw gh hw,
    ?_, ?_⟩
  · intro r c hr hc
    exact centeredGrid_cell_in lines gw gh r c hw hr hc
  · intro i j hi hj hout
    exact centeredGrid_cell_out lines gw gh i j hw hi hj hout

/-- Witness for C3: the single line `"X"` centered in a 3×3 grid; its
cell lands at `(1, 1)` and the grid is the expected 3×3 with one alive
center. -/
theorem pattern_centering_witness :
    patternWidthOf [['X']] ≤ 3 ∧ patternHeightOf [['X']] ≤ 3 ∧
    ∃ g, parse_text_file [['X']] 3 3 = Except.ok g ∧
      g.length = 3 ∧
      (∀ row ∈ g, row.length = 3) ∧
      (∀ r c, r < patternHeightOf [['X']] → c < patternWidthOf [['X']] →
        cellAt g (topPadOf 3 [['X']] + r) (leftPadOf 3 [['X']] + c) =
          patternCellOf [['X']] r c) ∧
      (∀ i j, i < 3 → j < 3 →
        (i < topPadOf 3 [['X']] ∨
         topPadOf 3 [['X']] + patternHeightOf [['X']] ≤ i ∨
         j < leftPadOf 3 [['X']] ∨
         leftPadOf 3 [['X']] + patternWidthOf [['X']] ≤ j) →
        cellAt g i j = Cell.deadCell) :=
  ⟨by decide, by decide, pattern_centering [['X']] 3 3 (by decide) (by decide)⟩

theorem parse_err (lines : List (List Char)) (gw gh : Nat)
    (h : gw < patternWidthOf lines ∨ gh < patternHeightOf lines) :
    parse_text_file lines gw gh = Except.error "Grid too small for pattern" := by
  unfold patternWidthOf patternHeightOf at h
  simp only [parse_text_file]
  rw [if_pos h]

/-- C7 counterexample: the size-check error value is the constant string
`"Grid too small for pattern"` — a too-wide 2×1 pattern in a 1×3 grid and
a too-tall 1×4 pattern in a 3×3 grid yield the identical error, so the
error does not report the offending dimensions as the claim states. -/
theorem error_msg_lacks_dims :
    parse_text_file [['A', 'A']] 1 3 =
        Except.error "Grid too small for pattern" ∧
      parse_text_file [['A'], ['A'], ['A'], ['A']] 3 3 =
        Except.error "Grid too small for pattern" :=
  ⟨rfl, rfl⟩

/-- C7 (amended): pattern-mode construction fails exactly when the
pattern is wider or taller than the grid; the failure carries the fixed
message `"Grid too small for pattern"` (it does not list the offending
dimensions); when the pattern fits, the size check does not fail. -/
theorem pattern_fit_check (lines : List (List Char)) (gw gh : Nat) :
    ((∃ g, parse_text_file lines gw gh = Except.ok g) ↔
      (patternWidthOf lines ≤ gw ∧ patternHeightOf lines ≤ gh)) ∧
    (∀ e, parse_text_file lines gw gh = Except.error e →
      e = "Grid too small for pattern") := by
  constructor
  · constructor
    · rintro ⟨g, hg⟩
      by_contra hne
      have h : gw < patternWidthOf lines ∨ gh < patternHeightOf lines := by
        omega
      rw [parse_err lines gw gh h] at hg
      exact Except.noConfusion hg
    · rintro ⟨h1, h2⟩
      exact ⟨centeredGrid lines gw gh, parse_ok lines gw gh h1 h2⟩
  · intro e he
    by_cases h : gw < patternWidthOf lines ∨ gh < patternHeightOf lines
    · rw [parse_err lines gw gh h] at he
      cases he
      rfl
    · have h1 : patternWidthOf lines ≤ gw ∧ patternHeightOf lines ≤ gh := by
        omega
      rw [parse_ok lines gw gh h1.1 h1.2] at he
      exact Except.noConfusion he

/-- Witness for C7 at a fitting 1×1 pattern in a 1×1 grid. -/
theorem pattern_fit_check_witness :
    ∃ g, parse_text_file [['A']] 1 1 = Except.ok g :=
  (pattern_fit_check [['A']] 1 1).1.mpr ⟨by decide, by decide⟩

/-- C8 counterexample: a line holding a single space character is not
dropped (only *empty* lines are), and the space marks an *alive* cell
(the code tests `c != '.'`, so whitespace inside a line is alive) —
contrary to the claim that blank lines are dropped and whitespace never
marks alive cells. -/
theorem whitespace_marks_alive :
    parse_text_file [[' ']] 1 1 = Except.ok [[Cell.new true]] := rfl

/-- C8 (amended): every *empty* line and every line beginning with `'!'`
is dropped (whitespace-only lines are kept); in the remaining lines a
`'.'` yields a dead cell and *any* other character — whitespace
included — yields an alive cell; rows shorter than the pattern width are
dead-padded on the right. -/
theorem plaintext_line_rules (lines : List (List Char)) (gw gh : Nat)
    (hw : patternWidthOf lines ≤ gw) (hh : patternHeightOf lines ≤ gh) :
    (∀ l, l ∈ patternLinesOf lines ↔
      (l ∈ lines ∧ l ≠ [] ∧ startsBang l = false)) ∧
    ∃ g, parse_text_file lines gw gh = Except.ok g ∧
      ∀ r c, r < patternHeightOf lines → c < patternWidthOf lines →
        (aliveAt g (topPadOf gh lines + r) (leftPadOf gw lines + c) = true ↔
          (c < ((patternLinesOf lines).getD r []).length ∧
           ((patternLinesOf lines).getD r []).getD c '.' ≠ '.')) := by
  constructor
  · intro l
    simp only [patternLinesOf, List.mem_filter, keepLine, Bool.and_eq_true,
      Bool.not_eq_true']
    have hbool : (l.isEmpty = false) ↔ l ≠ [] := by cases l <;> simp
    rw [hbool]
  · refine ⟨centeredGrid lines gw gh, parse_ok lines gw gh hw hh, ?_⟩
    intro r c hr hc
    rw [show aliveAt (centeredGrid lines gw gh)
          (topPadOf gh lines + r) (leftPadOf gw lines + c) =
        (cellAt (centeredGrid lines gw gh)
          (topPadOf gh lines + r) (leftPadOf gw lines + c)).is_alive from rfl,
      centeredGrid_cell_in lines gw gh r c hw hr hc]
    show ((((patternLinesOf lines).getD r []).getD c '.') != '.') = true ↔ _
    rw [bne_iff_ne]
    constructor
    · intro hne
      refine ⟨?_, hne⟩
      by_contra hcl
      push_neg at hcl
      exact hne (getD_of_le _ _ _ hcl)
    · intro h
      exact h.2

/-- Witness for C8 at the single line `"X."` in a 2×1 grid. -/
theorem plaintext_line_rules_witness :
    patternWidthOf [['X', '.']] ≤ 2 ∧ patternHeightOf [['X', '.']] ≤ 1 ∧
    ((∀ l, l ∈ patternLinesOf [['X', '.']] ↔
        (l ∈ [['X', '.']] ∧ l ≠ [] ∧ startsBang l = false)) ∧
     ∃ g, parse_text_file [['X', '.']] 2 1 = Except.ok g ∧
       ∀ r c, r < patternHeightOf [['X', '.']] →
         c < patternWidthOf [['X', '.']] →
         (aliveAt g (topPadOf 1 [['X', '.']] + r)
             (leftPadOf 2 [['X', '.']] + c) = true ↔
           (c < ((patternLinesOf [['X', '.']]).getD r []).length ∧
            ((patternLinesOf [['X', '.']]).getD r []).getD c '.' ≠ '.'))) :=
  ⟨by decide, by decide,
   plaintext_line_rules [['X', '.']] 2 1 (by decide) (by decide)⟩

/-- C10 counterexample: with input lines `"!"` and `" "` — each blank or
beginning with `'!'` under the ordinary reading of *blank* — pattern-mode
initialization of a 1×1 grid succeeds with an *alive* cell: the
whitespace-only line is not dropped and its space marks an alive cell,
so the grid is not fully dead and the dimensions are not 0×0. -/
theorem blank_line_not_dropped :
    parse_text_file [['!'], [' ']] 1 1 = Except.ok [[Cell.new true]] := rfl

/-- C10 (amended): if every input line is *empty* or begins with `'!'`,
the pattern dimensions compute to 0×0, the fit check passes for every
grid size, and pattern-mode initialization succeeds with the fully dead
`gw × gh` grid — no error is reported for an effectively empty
pattern. -/
theorem empty_pattern_ok (lines : List (List Char)) (gw gh : Nat)
    (hall : ∀ l ∈ lines, l = [] ∨ startsBang l = true) :
    patternWidthOf lines = 0 ∧ patternHeightOf lines = 0 ∧
    parse_text_file lines gw gh =
      Except.ok (List.replicate gh (deadRow gw)) := by
  have hf : patternLinesOf lines = [] := by
    unfold patternLinesOf
    rw [List.filter_eq_nil_iff]
    intro a ha
    rcases hall a ha with h | h
    · simp [keepLine, h]
    · simp [keepLine, h]
  have hpw : patternWidthOf lines = 0 := by
    unfold patternWidthOf
    rw [hf]
    rfl
  have hph : patternHeightOf lines = 0 := by
    unfold patternHeightOf
    rw [hf]
    rfl
  refine ⟨hpw, hph, ?_⟩
  rw [parse_ok lines gw gh (by omega) (by omega)]
  unfold centeredGrid topPadOf
  rw [hf, hph]
  simp only [List.map_nil, List.append_nil, List.nil_append]
  congr 1
  rw [← List.replicate_add]
  congr 1
  omega

/-- Witness for C10: two lines, one empty and one a `'!'` comment, into a
2×2 grid give the fully dead 2×2 grid. -/
theorem empty_pattern_ok_witness :
    patternWidthOf [[], ['!', 'a']] = 0 ∧
    patternHeightOf [[], ['!', 'a']] = 0 ∧
    parse_text_file [[], ['!', 'a']] 2 2 =
      Except.ok (List.replicate 2 (deadRow 2)) :=
  empty_pattern_ok [[], ['!', 'a']] 2 2 (by decide)

/-- `ratatui::symbols::Marker` values used by the session (the cycle
order of `handle_key_press` is Dot → Braille → Block → HalfBlock → Bar →
Dot). -/
inductive Marker where
  | dot
  | braille
  | block
  | halfBlock
  | bar
deriving DecidableEq, Repr

/-- One row of `Universe::initialize_random` (hereafter `init_random`):
`(0..width).map(|_| Cell::new(rng.random_bool(density)))`, threading the
generator state through the row.  The generator step `rb` abstracts the
external `rand` crate's `random_bool`: a pure state transformer, exactly
as `StdRng` (whose state is fully determined by its seed). -/
def randRow {σ : Type} (rb : σ → ℚ → Bool × σ) (d : ℚ) :
    Nat → σ → List Cell × σ
  | 0, s => ([], s)
  | n + 1, s =>
    let p := rb s d
    let rest := randRow rb d n p.2
    (Cell.new p.1 :: rest.1, rest.2)

/-- The row loop of `init_random`: `height` rows of `width` cells,
threading generator state row-major. -/
def randGrid {σ : Type} (rb : σ → ℚ → Bool × σ) (d : ℚ) :
    Nat → Nat → σ → List (List Cell) × σ
  | 0, _, s => ([], s)
  | h + 1, w, s =>
    let row := randRow rb d w s
    let rest := randGrid rb d h w row.2
    (row.1 :: rest.1, rest.2)

/-- `Universe::initialize_random(seed, density)` from `universe.rs`:
seed the generator from `seed` alone (`StdRng::seed_from_u64`, abstracted
as `seed_from`), then fill `height` rows of `width` cells.  The entire
computation is an explicit function of `(seed, density, width, height)`
and the (fixed, pure) generator functions — no other input exists. -/
def init_random {σ : Type} (seed_from : Nat → σ) (rb : σ → ℚ → Bool × σ)
    (seed : Nat) (density : ℚ) (width height : Nat) : List (List Cell) :=
  (randGrid rb density height width (seed_from seed)).1

/-- C4: random initialization is deterministic — two calls of
`init_random` with identical `(seed, density, width, height)` (and the
same generator, which the `rand` crate fixes) produce cell-for-cell
identical grids.  In the embedding the generator state is threaded
explicitly from the seed, so the result is a pure function of the
arguments. -/
theorem random_init_deterministic {σ : Type} (sf : Nat → σ)
    (rb : σ → ℚ → Bool × σ) (seed : Nat) (density : ℚ) (w h : Nat)
    (g1 g2 : List (List Cell))
    (h1 : g1 = init_random sf rb seed density w h)
    (h2 : g2 = init_random sf rb seed density w h) :
    g1 = g2 := by
  rw [h1, h2]

/-- Witness for C4 with a concrete generator (state `Nat`, parity
booleans), seed 5, density 1/2, 2×2 grid. -/
theorem random_init_deterministic_witness :
    init_random (fun s => s) (fun s _ => (decide (s % 2 = 0), s + 1))
        5 (1 / 2) 2 2 =
      init_random (fun s => s) (fun s _ => (decide (s % 2 = 0), s + 1))
        5 (1 / 2) 2 2 :=
  random_init_deterministic (fun s => s)
    (fun s _ => (decide (s % 2 = 0), s + 1)) 5 (1 / 2) 2 2 _ _ rfl rfl

/-- The session state (`Universe` struct of `universe.rs`): speed, grid,
marker, exit flag and terminal size. -/
structure UniverseM where
  speed : Nat
  grid : List (List Cell)
  marker : Marker
  exit : Bool
  size_w : Nat
  size_h : Nat
deriving Repr

/-- The initialization choice of the `universe.rs` builder. -/
inductive UInit where
  | random (seed : Nat) (density : ℚ)
  | file (lines : List (List Char))

/-- `seed`/`density` stored in a random initialization, if any. -/
def UInit.densityOf : UInit → Option ℚ
  | .random _ d => some d
  | _ => none

/-- The `UniverseBuilder` defined in `universe.rs` itself. -/
structure UniverseBuilderRs where
  size_w : Nat
  size_h : Nat
  speed : Nat
  init : UInit

/-- `UniverseBuilder::new(size)` of `universe.rs`: speed defaults to 30,
initialization to `Random { seed: 1, density: 0.5 }`. -/
def UniverseBuilderRs.new (size_w size_h : Nat) : UniverseBuilderRs :=
  { size_w := size_w, size_h := size_h, speed := 30,
    init := UInit.random 1 (1 / 2) }

/-- The `speed` setter of the `universe.rs` builder. -/
def UniverseBuilderRs.speedSet (b : UniverseBuilderRs) (s : Nat) :
    UniverseBuilderRs :=
  { b with speed := s }

/-- The `random(seed, density)` setter of the `universe.rs` builder:
stores the raw density, no validation and no clamping here. -/
def UniverseBuilderRs.random (b : UniverseBuilderRs) (seed : Nat)
    (density : ℚ) : UniverseBuilderRs :=
  { b with init := UInit.random seed density }

/-- The `with_file(path)` setter, with the file already read as lines. -/
def UniverseBuilderRs.with_file (b : UniverseBuilderRs)
    (lines : List (List Char)) : UniverseBuilderRs :=
  { b with init := UInit.file lines }

/-- `UniverseBuilder::build` of `universe.rs`: random mode checks
`(0.0..=1.0).contains(&density)` and fails with the message
`"Density must be in range [0,1]"` otherwise; file mode delegates to
`parse_text_file`.  No check of `speed` is performed anywhere. -/
def UniverseBuilderRs.build {σ : Type} (sf : Nat → σ)
    (rb : σ → ℚ → Bool × σ) (b : UniverseBuilderRs) :
    Except String UniverseM :=
  match b.init with
  | UInit.random seed density =>
      if 0 ≤ density ∧ density ≤ 1 then
        Except.ok { speed := b.speed,
                    grid := init_random sf rb seed density b.size_w b.size_h,
                    marker := Marker.block, exit := false,
                    size_w := b.size_w, size_h := b.size_h }
      else Except.error "Density must be in range [0,1]"
  | UInit.file lines =>
      match parse_text_file lines b.size_w b.size_h with
      | Except.ok g =>
          Except.ok { speed := b.speed, grid := g, marker := Marker.block,
                      exit := false, size_w := b.size_w, size_h := b.size_h }
      | Except.error e => Except.error e

/-- Rust `f64::clamp(0.0, 1.0)` on the exact rational model. -/
def clamp01 (d : ℚ) : ℚ := if d < 0 then 0 else if 1 < d then 1 else d

/-- The initialization choice of the `universe_builder.rs` builder
(which adds a stdin variant). -/
inductive UInit2 where
  | random (seed : Nat) (density : ℚ)
  | file (lines : List (List Char))
  | stdin (input : List (List Char))

/-- Density stored in a random initialization, if any. -/
def UInit2.densityOf : UInit2 → Option ℚ
  | .random _ d => some d
  | _ => none

/-- The `UniverseBuilder` defined in `universe_builder.rs` (the one
`main.rs` uses). -/
structure UniverseBuilder2 where
  size_w : Nat
  size_h : Nat
  speed : Nat
  color : String
  init : UInit2

/-- `UniverseBuilder::new(size, speed, seed, density, color)` of
`universe_builder.rs`: defaults speed 30, color `"0x00FFFFFF"`, seed 1,
density 0.5 — and the density argument is passed through
`.clamp(0.0, 1.0)`, silently forcing it into range. -/
def UniverseBuilder2.new (size_w size_h : Nat) (speed : Option Nat)
    (seed : Option Nat) (density : Option ℚ) (color : Option String) :
    UniverseBuilder2 :=
  { size_w := size_w, size_h := size_h,
    speed := speed.getD 30,
    color := color.getD "0x00FFFFFF",
    init := UInit2.random (seed.getD 1) (clamp01 (density.getD (1 / 2))) }

/-- The `random(seed, density)` setter of `universe_builder.rs`: stores
the raw density, no validation and no clamping. -/
def UniverseBuilder2.random (b : UniverseBuilder2) (seed : Nat)
    (density : ℚ) : UniverseBuilder2 :=
  { b with init := UInit2.random seed density }

/-- The `color(color)` setter of `universe_builder.rs`. -/
def UniverseBuilder2.colorSet (b : UniverseBuilder2) (c : String) :
    UniverseBuilder2 :=
  { b with color := c }

/-- `UniverseBuilderRs.build` on a random initialization reduces to the
density range check. -/
theorem buildRs_eq {σ : Type} (sf : Nat → σ) (rb : σ → ℚ → Bool × σ)
    (b : UniverseBuilderRs) (seed : Nat) (d : ℚ)
    (hb : b.init = UInit.random seed d) :
    UniverseBuilderRs.build sf rb b =
      (if 0 ≤ d ∧ d ≤ 1 then
        Except.ok { speed := b.speed,
                    grid := init_random sf rb seed d b.size_w b.size_h,
                    marker := Marker.block, exit := false,
                    size_w := b.size_w, size_h := b.size_h }
      else Except.error "Density must be in range [0,1]") := by
  unfold UniverseBuilderRs.build
  rw [hb]

/-- C5 counterexample: `UniverseBuilder::new` in `universe_builder.rs`
called with density 2 (outside `[0,1]`) silently stores the clamped
density 1 — the out-of-range density is clamped, not rejected, on the
constructor path, contrary to the claim. -/
theorem density_clamped_in_constructor :
    (UniverseBuilder2.new 4 4 none none (some 2) none).init.densityOf =
      some 1 := by
  norm_num [UniverseBuilder2.new, clamp01, UInit2.densityOf]

/-- C5 (amended): density validation is split across the two builder
variants.  On the `universe.rs` builder, a random-mode `build` fails
(with the `"Density must be in range [0,1]"` error) exactly when the
stored density is outside `[0,1]`, and the `random()` setter stores the
raw density unclamped.  On the `universe_builder.rs` path, however, the
*constructor* silently clamps its density argument into `[0,1]` (so its
stored density is always in range), while its `random()` setter also
stores the raw value with no validation. -/
theorem density_policy {σ : Type} (sf : Nat → σ) (rb : σ → ℚ → Bool × σ)
    (seed : Nat) (d : ℚ) (b : UniverseBuilderRs)
    (hb : b.init = UInit.random seed d) :
    ((∃ e, UniverseBuilderRs.build sf rb b = Except.error e) ↔
      (d < 0 ∨ 1 < d)) ∧
    (UniverseBuilderRs.random b seed d).init.densityOf = some d ∧
    (0 ≤ clamp01 d ∧ clamp01 d ≤ 1) ∧
    (UniverseBuilder2.new 4 4 none none (some d) none).init.densityOf =
      some (clamp01 d) ∧
    ((UniverseBuilder2.new 4 4 none none none none).random seed d).init.densityOf
      = some d := by
  have hmain : UniverseBuilderRs.build sf rb b =
      (if 0 ≤ d ∧ d ≤ 1 then
        Except.ok { speed := b.speed,
                    grid := init_random sf rb seed d b.size_w b.size_h,
                    marker := Marker.block, exit := false,
                    size_w := b.size_w, size_h := b.size_h }
      else Except.error "Density must be in range [0,1]") := by
    unfold UniverseBuilderRs.build
    rw [hb]
  refine ⟨?_, rfl, ?_, rfl, rfl⟩
  · rw [hmain]
    by_cases hd : 0 ≤ d ∧ d ≤ 1
    · rw [if_pos hd]
      constructor
      · rintro ⟨e, he⟩
        exact Except.noConfusion he
      · intro h
        rcases h with h | h
        · linarith [hd.1]
        · linarith [hd.2]
    · rw [if_neg hd]
      constructor
      · intro _
        by_contra hno
        push_neg at hno
        exact hd ⟨by linarith [hno.1], by linarith [hno.2]⟩
      · intro _
        exact ⟨"Density must be in range [0,1]", rfl⟩
  · unfold clamp01
    by_cases h1 : d < 0
    · rw [if_pos h1]
      norm_num
    · rw [if_neg h1]
      by_cases h2 : 1 < d
      · rw [if_pos h2]
        norm_num
      · rw [if_neg h2]
        constructor
        · linarith [not_lt.mp h1]
        · linarith [not_lt.mp h2]

/-- Witness for C5: with density 2 stored via the `universe.rs` builder's
`random()` setter, `build` fails. -/
theorem density_policy_witness :
    ∃ e, UniverseBuilderRs.build (fun s => s)
        (fun (s : Nat) (_ : ℚ) => (false, s))
        (UniverseBuilderRs.random (UniverseBuilderRs.new 2 2) 7 2) =
      Except.error e :=
  ((density_policy (fun s => s) (fun (s : Nat) (_ : ℚ) => (false, s)) 7 2
      (UniverseBuilderRs.random (UniverseBuilderRs.new 2 2) 7 2) rfl).1).mpr
    (Or.inr (by norm_num))

/-- The tick-interval computation of `Universe::run`:
`Duration::from_millis(1000 / self.speed as u64)` in milliseconds.
Rust integer division by zero panics, modelled as `none`. -/
def tick_rate_ms (speed : Nat) : Option Nat :=
  if speed = 0 then none else some (1000 / speed)

/-- C6 (code bug): construction does NOT reject a ticks-per-second value
of zero — `UniverseBuilder::build` in `universe.rs` performs no speed
check, so building with speed 0 (CLI `-S 0`) succeeds with the default
random initialization, and the run loop's very first step computes
`1000 / 0`, an integer division by zero that panics in Rust (modelled
here as `tick_rate_ms 0 = none`). -/
theorem speed_zero_not_rejected :
    (∃ u, UniverseBuilderRs.build (fun s => s)
        (fun (s : Nat) (_ : ℚ) => (false, s))
        (UniverseBuilderRs.speedSet (UniverseBuilderRs.new 2 2) 0) =
      Except.ok u ∧ u.speed = 0) ∧
    tick_rate_ms 0 = none := by
  constructor
  · have hg := buildRs_eq (fun s => s) (fun (s : Nat) (_ : ℚ) => (false, s))
      (UniverseBuilderRs.speedSet (UniverseBuilderRs.new 2 2) 0)
      1 (1 / 2) rfl
    rw [if_pos (by norm_num)] at hg
    exact ⟨_, hg, rfl⟩
  · rfl

/-- Modelled from the spec: the current `Universe` implementation whose
draw path consumes the builder's color string (`universe_builder.rs`
stores it and passes it to `Universe::new`) is not present under the
sources; per spec §4.5 the resolver splits the string on non-digit-run
boundaries.  `digitRuns` collects the maximal runs of decimal digits. -/
def digitRuns : List Char → List (List Char)
  | [] => []
  | c :: rest =>
    if c.isDigit then
      match rest with
      | [] => [[c]]
      | d :: _ =>
        if d.isDigit then
          match digitRuns rest with
          | r :: rs => (c :: r) :: rs
          | [] => [[c]]
        else [c] :: digitRuns rest
    else digitRuns rest

/-- Numeric value of a digit run (decimal). -/
def natOfDigits (t : List Char) : Nat :=
  t.foldl (fun a c => a * 10 + (c.toNat - 48)) 0

/-- Modelled from the spec: parsing one token as an 8-bit unsigned
integer (`u8::from_str`) — succeeds exactly when the value fits in
`0..=255`. -/
def parseU8 (t : List Char) : Option Nat :=
  if natOfDigits t ≤ 255 then some (natOfDigits t) else none

/-- Modelled from the spec: the color resolver of the missing current
`universe.rs` — split on non-digit-run boundaries, expect exactly 3
tokens, parse each as a `u8`; any wrong token count or unparseable token
is the recoverable `InvalidColorFormat` failure (`none`). -/
def parse_color (s : List Char) : Option (Nat × Nat × Nat) :=
  match digitRuns s with
  | [r, g, b] =>
    match parseU8 r, parseU8 g, parseU8 b with
    | some x, some y, some z => some (x, y, z)
    | _, _, _ => none
  | _ => none

/-- Modelled from the spec: the caller catches the resolver failure and
substitutes the documented default color `"255,255,255"` (white) instead
of aborting, so the session proceeds. -/
def resolve_color (s : List Char) : Nat × Nat × Nat :=
  (parse_color s).getD (255, 255, 255)

/-- C9 (spec-modelled): the resolver accepts exactly the strings whose
digit runs form 3 tokens each fitting in a `u8`; `"255,0,0"` resolves to
pure red, `"bad"` resolves to the documented default `(255,255,255)`
without failing (the resolver is total — the session proceeds). -/
theorem color_resolver_spec :
    resolve_color ("255,0,0".toList) = (255, 0, 0) ∧
    resolve_color ("bad".toList) = (255, 255, 255) ∧
    (∀ s, (parse_color s).isSome = true ↔
      ((digitRuns s).length = 3 ∧
       ∀ t ∈ digitRuns s, natOfDigits t ≤ 255)) := by
  refine ⟨by decide, by decide, ?_⟩
  intro s
  rcases hds : digitRuns s with _ | ⟨r, _ | ⟨g, _ | ⟨b, _ | ⟨x, xs⟩⟩⟩⟩
  · simp [parse_color, hds]
  · simp [parse_color, hds]
  · simp [parse_color, hds]
  · simp only [parse_color, hds, parseU8]
    by_cases h1 : natOfDigits r ≤ 255 <;>
      by_cases h2 : natOfDigits g ≤ 255 <;>
        by_cases h3 : natOfDigits b ≤ 255 <;>
          simp [h1, h2, h3]
  · simp [parse_color, hds]

/-- Witness for C9: `"10,20,30"` parses successfully. -/
theorem color_resolver_spec_witness :
    (parse_color ("10,20,30".toList)).isSome = true :=
  (color_resolver_spec.2.2 ("10,20,30".toList)).mpr ⟨by decide, by decide⟩
